import Mathlib

/-!
Verification of the Auto-Import subsystem of the karakeep mobile app
(`apps/mobile/lib/autoImport.ts`, first module version: `AutoImportService`,
WatermelonDB-backed `ImportedFilesCache`).

The TypeScript source is shallowly embedded: JavaScript strings become
`String` (manipulated through their underlying `List Char` so that all
definitions evaluate inside the kernel), fallible external calls become
`Except String`-valued oracles collected in a `ScanEnv` record, and the
WatermelonDB cache becomes a pure list of records threaded as state.
I/O performed by a run is recorded as a list of `Event`s so that claims
about which I/O happens (directory listings, existence checks, uploads,
bookmark registrations) can be stated directly.
-/

namespace AutoImport

/-- Splits a character list at every occurrence of the separator, mirroring
the semantics of JavaScript `String.prototype.split` with a single-character
separator: `"" ↦ [""]`, `"a.b" ↦ ["a","b"]`, `"a." ↦ ["a",""]`. -/
def splitOnChar (sep : Char) (cs : List Char) : List (List Char) :=
  cs.foldr
    (fun c acc =>
      match acc with
      | [] => [[c]]
      | g :: gs => if c == sep then [] :: g :: gs else (c :: g) :: gs)
    [[]]

/-- The last field produced by `splitOnChar`, mirroring JavaScript
`str.split(sep).pop()` (the array returned by `split` is never empty, so
`pop` never yields `undefined`). -/
def lastSplitToken (sep : Char) (cs : List Char) : List Char :=
  (splitOnChar sep cs).getLastD []

/-- Per-character lowercasing, mirroring `String.prototype.toLowerCase` on
the ASCII inputs this module manipulates. -/
def toLowerList (cs : List Char) : List Char :=
  cs.map Char.toLower

/-- `getImageMimeType` (autoImport.ts lines 563-580): the extension is
`filename.toLowerCase().split(".").pop()` and the switch maps the six
allow-listed extensions to their MIME types, everything else to `""`.
The JavaScript `switch` compares the extension for strict equality against
each case label in order, which the if-chain mirrors. -/
def getImageMimeType (filename : String) : String :=
  let extension := String.mk (lastSplitToken '.' (toLowerList filename.data))
  if extension == "jpg" || extension == "jpeg" then "image/jpeg"
  else if extension == "png" then "image/png"
  else if extension == "gif" then "image/gif"
  else if extension == "bmp" then "image/bmp"
  else if extension == "webp" then "image/webp"
  else ""

/-- The extension token `getImageMimeType` classifies by: the lowercased
last `.`-separated field of the name (the whole lowercased name when the
name contains no dot). -/
def extTokenOf (s : String) : String :=
  String.mk (lastSplitToken '.' (toLowerList s.data))

/-- Modelled from the spec: the MIME mapping table of section 8
("jpg→image/jpeg, jpeg→image/jpeg, png→image/png, gif→image/gif,
bmp→image/bmp, webp→image/webp", anything else excluded), expressed as a
function of the extension alone, for comparison with `getImageMimeType`. -/
def specMimeOfExt (extension : String) : String :=
  if extension == "jpg" || extension == "jpeg" then "image/jpeg"
  else if extension == "png" then "image/png"
  else if extension == "gif" then "image/gif"
  else if extension == "bmp" then "image/bmp"
  else if extension == "webp" then "image/webp"
  else ""

/-- Error message of the URIError raised by `decodeURIComponent`. -/
def malformedMsg : String := "URIError: URI malformed"

/-- Value of a hexadecimal digit character, `none` for non-hex characters. -/
def hexDigitVal (c : Char) : Option Nat :=
  if '0' ≤ c ∧ c ≤ '9' then some (c.toNat - '0'.toNat)
  else if 'a' ≤ c ∧ c ≤ 'f' then some (c.toNat - 'a'.toNat + 10)
  else if 'A' ≤ c ∧ c ≤ 'F' then some (c.toNat - 'A'.toNat + 10)
  else none

/-- Tokens of a percent-encoded string: a literal character, or the byte of
one `%XX` escape sequence. -/
inductive UriTok where
  | lit (c : Char)
  | byte (b : Nat)
deriving DecidableEq, Repr

/-- First phase of `decodeURIComponent`: every `%` must be followed by two
hexadecimal digits (otherwise ECMAScript throws `URIError: URI malformed`);
all other characters pass through. -/
def tokenizePercent : List Char → Except String (List UriTok)
  | [] => .ok []
  | '%' :: c1 :: c2 :: rest =>
    match hexDigitVal c1, hexDigitVal c2 with
    | some h1, some h2 => (tokenizePercent rest).map (fun ts => .byte (16 * h1 + h2) :: ts)
    | _, _ => .error malformedMsg
  | '%' :: _ => .error malformedMsg
  | c :: rest => (tokenizePercent rest).map (fun ts => .lit c :: ts)

/-- Is the byte a UTF-8 continuation byte (10xxxxxx)? -/
def isContByte (b : Nat) : Bool :=
  0x80 ≤ b && b < 0xC0

/-- Second phase of `decodeURIComponent`: escape-sequence bytes are decoded
as UTF-8 (multi-byte sequences must be complete, made of continuation
bytes, not overlong, not a surrogate, and at most U+10FFFF — otherwise
ECMAScript throws `URIError: URI malformed`); literal characters pass
through. -/
def decodeToks : List UriTok → Except String (List Char)
  | [] => .ok []
  | .lit c :: rest => (decodeToks rest).map (fun cs => c :: cs)
  | .byte b :: rest =>
    if b < 0x80 then
      (decodeToks rest).map (fun cs => Char.ofNat b :: cs)
    else if b < 0xC2 then .error malformedMsg
    else if b ≤ 0xDF then
      match rest with
      | .byte b2 :: rest2 =>
        if isContByte b2 then
          (decodeToks rest2).map (fun cs => Char.ofNat ((b - 0xC0) * 64 + (b2 - 0x80)) :: cs)
        else .error malformedMsg
      | _ => .error malformedMsg
    else if b ≤ 0xEF then
      match rest with
      | .byte b2 :: .byte b3 :: rest3 =>
        if isContByte b2 && isContByte b3 then
          let cp := (b - 0xE0) * 4096 + (b2 - 0x80) * 64 + (b3 - 0x80)
          if cp < 0x800 ∨ (0xD800 ≤ cp ∧ cp ≤ 0xDFFF) then .error malformedMsg
          else (decodeToks rest3).map (fun cs => Char.ofNat cp :: cs)
        else .error malformedMsg
      | _ => .error malformedMsg
    else if b ≤ 0xF4 then
      match rest with
      | .byte b2 :: .byte b3 :: .byte b4 :: rest4 =>
        if isContByte b2 && isContByte b3 && isContByte b4 then
          let cp := (b - 0xF0) * 262144 + (b2 - 0x80) * 4096 + (b3 - 0x80) * 64 + (b4 - 0x80)
          if cp < 0x10000 ∨ 0x10FFFF < cp then .error malformedMsg
          else (decodeToks rest4).map (fun cs => Char.ofNat cp :: cs)
        else .error malformedMsg
      | _ => .error malformedMsg
    else .error malformedMsg

/-- Model of the ECMAScript builtin `decodeURIComponent` used at
autoImport.ts line 183: percent-escapes are decoded as UTF-8 byte
sequences, and a malformed escape (a `%` not followed by two hex digits,
or an invalid byte sequence) raises `URIError`, modelled as `.error`. -/
def decodeURIComponent (s : String) : Except String String :=
  match tokenizePercent s.data with
  | .error e => .error e
  | .ok toks =>
    match decodeToks toks with
    | .error e => .error e
    | .ok cs => .ok (String.mk cs)

/-- Does an `Except` hold a success value? -/
def exceptOk {ε α : Type} : Except ε α → Bool
  | .ok _ => true
  | .error _ => false

/-- `ImportedFileRecord` (autoImport.ts lines 37-40): one Dedup Cache entry.
Timestamps are modelled as naturals (epoch milliseconds). -/
structure ImportedFileRecord where
  sourceUri : String
  importTimestamp : Nat
deriving DecidableEq, Repr

/-- The WatermelonDB `imported_files` table backing `ImportedFilesCache`,
modelled as the list of its records in creation order. -/
abbrev Cache := List ImportedFileRecord

/-- The source URIs of the cache records, in order. -/
def cacheKeys (cache : Cache) : List String :=
  cache.map (fun r => r.sourceUri)

/-- The cache invariant of the spec's data model: at most one record per
`sourceUri`. -/
def NoDupKeys (cache : Cache) : Prop :=
  (cacheKeys cache).Nodup

instance (cache : Cache) : Decidable (NoDupKeys cache) := by
  unfold NoDupKeys; infer_instance

/-- `ImportedFilesCache.hasBeenImported` (lines 457-469): fetch the records
whose `source_uri` equals the argument and report whether any exist; a
storage failure (modelled by `storageOk = false`) is caught and yields
`false`. -/
def hasBeenImported (storageOk : Bool) (cache : Cache) (sourceUri : String) : Bool :=
  if storageOk then cache.any (fun r => r.sourceUri == sourceUri) else false

/-- `ImportedFilesCache.addImportedFile` (lines 471-489): inside one
database write, fetch the records with the same `source_uri` and create a
new record only when none exists; a storage failure is caught and swallowed
(no write). The WatermelonDB model sets `import_timestamp` at creation
time, which is the `importTimestamp` of the record being added. -/
def addImportedFile (storageOk : Bool) (cache : Cache) (r : ImportedFileRecord) : Cache :=
  if storageOk then
    if cache.any (fun q => q.sourceUri == r.sourceUri) then cache
    else cache ++ [r]
  else cache

/-- `ImportedFilesCache.removeImportedFile` (lines 491-507): delete every
record with the given `source_uri`; a storage failure is caught and
swallowed. -/
def removeImportedFile (storageOk : Bool) (cache : Cache) (sourceUri : String) : Cache :=
  if storageOk then cache.filter (fun r => !(r.sourceUri == sourceUri)) else cache

/-- `ImportedFilesCache.getImportedFiles` (lines 509-522): list all
records; a storage failure is caught and yields the empty list. -/
def getImportedFiles (storageOk : Bool) (cache : Cache) : List ImportedFileRecord :=
  if storageOk then cache else []

/-- `ImportedFilesCache.clearCache` (lines 524-538): delete every record; a
storage failure is caught and swallowed. -/
def clearCache (storageOk : Bool) (cache : Cache) : Cache :=
  if storageOk then [] else cache

/-- Result shape of `ImportedFilesCache.getStats`. -/
structure CacheStats where
  totalFiles : Nat
  oldestImport : Option Nat
  newestImport : Option Nat
deriving DecidableEq, Repr

/-- `ImportedFilesCache.getStats` (lines 540-560): record count plus
`Math.min`/`Math.max` over the timestamps when any exist, `null` otherwise;
a storage failure is caught and yields `{0, null, null}`. -/
def getStats (storageOk : Bool) (cache : Cache) : CacheStats :=
  if storageOk then
    let timestamps := cache.map (fun r => r.importTimestamp)
    { totalFiles := cache.length
      oldestImport := match timestamps with | [] => none | t :: ts => some (ts.foldl Nat.min t)
      newestImport := match timestamps with | [] => none | t :: ts => some (ts.foldl Nat.max t) }
  else { totalFiles := 0, oldestImport := none, newestImport := none }

/-- One configured folder (`settings.autoImport.folders` element): an
opaque SAF tree URI plus a display name. -/
structure FolderConfig where
  uri : String
  name : String
deriving DecidableEq, Repr

/-- The slice of the persisted `Settings` that the scan paths consult:
`autoImport.enabled` and `autoImport.folders`. -/
structure Settings where
  enabled : Bool
  folders : List FolderConfig
deriving Repr

/-- `ImportedImage` (autoImport.ts lines 31-35): one discovered candidate. -/
structure ImportedImage where
  uri : String
  filename : String
  mimeType : String
deriving DecidableEq, Repr

/-- One unit of I/O performed by a scan run, recorded for the claims about
which I/O happens: a `StorageAccessFramework.readDirectoryAsync` call, a
`getInfoAsync` existence check, an asset upload, a bookmark registration,
or an `addImportedFile` cache write. -/
inductive Event where
  | dirRead (folderUri : String)
  | infoCheck (fileUri : String)
  | upload (uri : String)
  | bookmark (uri : String)
  | cacheAdd (uri : String)
deriving DecidableEq, Repr

/-- The external collaborators of one scan run, as pure oracles: directory
listing and file-info per URI, upload and bookmark registration per
candidate URI (the upload result is the asset id), and the health of the
cache's storage for the run (`dbOk`). An `.error` value models the
corresponding JavaScript call throwing / its promise rejecting. -/
structure ScanEnv where
  readDirectory : String → Except String (List String)
  getInfo : String → Except String Bool
  uploadAsset : String → Except String String
  createBookmark : String → Except String Unit
  dbOk : Bool

/-- Outcome of a discovery step: the candidates contributed
(`allNewImages` entries) and the I/O performed. -/
structure DiscoverOutcome where
  cands : List ImportedImage
  events : List Event
deriving Repr

/-- Body of the per-file loop of `scanAndImportNewImages` (lines 180-200):
`getInfoAsync(fileUri)`, then `decodeURIComponent(fileUri)`, then the
filename is the last `:`-separated field of the decoded URI; the file
becomes a candidate when it exists and the Dedup Cache has no record for
the decoded URI. Any exception (info failure or URIError from the decode)
is caught by the per-file catch and the file contributes no candidate. -/
def discoverFile (env : ScanEnv) (cache : Cache) (fileUri : String) : DiscoverOutcome :=
  match env.getInfo fileUri with
  | .error _ => { cands := [], events := [.infoCheck fileUri] }
  | .ok fileExists =>
    match decodeURIComponent fileUri with
    | .error _ => { cands := [], events := [.infoCheck fileUri] }
    | .ok uri =>
      let filename := String.mk (lastSplitToken ':' uri.data)
      if fileExists && !(hasBeenImported env.dbOk cache uri) then
        { cands := [{ uri := uri, filename := filename, mimeType := getImageMimeType filename }],
          events := [.infoCheck fileUri] }
      else { cands := [], events := [.infoCheck fileUri] }

/-- The per-file loop of `scanAndImportNewImages` over the files that
survived the extension filter, in order. -/
def discoverFiles (env : ScanEnv) (cache : Cache) : List String → DiscoverOutcome
  | [] => { cands := [], events := [] }
  | u :: rest =>
    { cands := (discoverFile env cache u).cands ++ (discoverFiles env cache rest).cands,
      events := (discoverFile env cache u).events ++ (discoverFiles env cache rest).events }

/-- Body of the per-folder loop of `scanAndImportNewImages` (lines
172-204): list the folder, keep the files with `getImageMimeType(uri) !==
""`, and run the per-file loop; a folder-level failure is caught and the
folder contributes no candidates. -/
def scanFolder (env : ScanEnv) (cache : Cache) (folder : FolderConfig) : DiscoverOutcome :=
  match env.readDirectory folder.uri with
  | .error _ => { cands := [], events := [.dirRead folder.uri] }
  | .ok files =>
    let imageFiles := files.filter (fun u => getImageMimeType u != "")
    { cands := (discoverFiles env cache imageFiles).cands,
      events := .dirRead folder.uri :: (discoverFiles env cache imageFiles).events }

/-- The per-folder loop of `scanAndImportNewImages` over all configured
folders, concatenating the candidates (`allNewImages`). -/
def discoverAll (env : ScanEnv) (cache : Cache) : List FolderConfig → DiscoverOutcome
  | [] => { cands := [], events := [] }
  | f :: fs =>
    { cands := (scanFolder env cache f).cands ++ (discoverAll env cache fs).cands,
      events := (scanFolder env cache f).events ++ (discoverAll env cache fs).events }

/-- Outcome of one candidate's pass through the import pipeline. -/
structure ImportStep where
  cache : Cache
  succeeded : Bool
  events : List Event
deriving Repr

/-- Body of the per-candidate loop of `importImages` (lines 218-245):
upload the asset, register the bookmark, then `addImportedFile` with the
candidate's URI and the current time; any failure is caught, the remaining
steps for this candidate are skipped, and the loop continues. -/
def importOne (env : ScanEnv) (cache : Cache) (now : Nat) (img : ImportedImage) : ImportStep :=
  match env.uploadAsset img.uri with
  | .error _ => { cache := cache, succeeded := false, events := [.upload img.uri] }
  | .ok _assetId =>
    match env.createBookmark img.uri with
    | .error _ =>
      { cache := cache, succeeded := false, events := [.upload img.uri, .bookmark img.uri] }
    | .ok _ =>
      { cache := addImportedFile env.dbOk cache { sourceUri := img.uri, importTimestamp := now },
        succeeded := true,
        events := [.upload img.uri, .bookmark img.uri, .cacheAdd img.uri] }

/-- Did both the upload and the bookmark registration of this candidate
succeed? (Both oracles are keyed by the candidate URI, so success is a
function of the environment and the candidate alone.) -/
def importSucceeds (env : ScanEnv) (img : ImportedImage) : Bool :=
  exceptOk (env.uploadAsset img.uri) && exceptOk (env.createBookmark img.uri)

/-- Outcome of the whole import loop: the final cache, the number of fully
successful imports (instrumentation: the JavaScript function returns
nothing), and the I/O performed. -/
structure ImportOutcome where
  cache : Cache
  successes : Nat
  events : List Event
deriving Repr

/-- `AutoImportService.importImages` (lines 217-246): the strictly
sequential per-candidate loop. -/
def importImages (env : ScanEnv) (cache : Cache) (now : Nat) :
    List ImportedImage → ImportOutcome
  | [] => { cache := cache, successes := 0, events := [] }
  | img :: rest =>
    let step := importOne env cache now img
    let tail := importImages env step.cache now rest
    { cache := tail.cache,
      successes := (if step.succeeded then 1 else 0) + tail.successes,
      events := step.events ++ tail.events }

/-- Outcome of one `scanAndImportNewImages` run. `returnedCount` is the
value the JavaScript function resolves with (`allNewImages.length`);
`successCount` is instrumentation counting the candidates whose upload and
bookmark registration both succeeded; `timestampUpdated` records whether
`updateLastScanTimestamp` was invoked. -/
structure ScanResult where
  returnedCount : Nat
  successCount : Nat
  cache : Cache
  timestampUpdated : Bool
  events : List Event
deriving Repr

/-- `AutoImportService.scanAndImportNewImages` (lines 161-215): with no
folders configured, return 0 immediately; otherwise discover candidates
across all folders, and only when at least one candidate was found run
`importImages` and then `updateLastScanTimestamp`; finally resolve with
`allNewImages.length`. -/
def scanAndImportNewImages (env : ScanEnv) (cache : Cache)
    (folders : List FolderConfig) (now : Nat) : ScanResult :=
  if folders.isEmpty then
    { returnedCount := 0, successCount := 0, cache := cache,
      timestampUpdated := false, events := [] }
  else
    let d := discoverAll env cache folders
    if d.cands.length > 0 then
      let i := importImages env cache now d.cands
      { returnedCount := d.cands.length, successCount := i.successes, cache := i.cache,
        timestampUpdated := true, events := d.events ++ i.events }
    else
      { returnedCount := d.cands.length, successCount := 0, cache := cache,
        timestampUpdated := false, events := d.events }

/-- `AutoImportService.performScan` (lines 121-147): the guarded entry used
by the interval timer and the background task. When `isScanning` is true
the call is dropped immediately (logged and returned, no I/O); otherwise
the stored settings are read (`none` models a SecureStore failure or no
stored value) and the scan runs only when auto-import is enabled and at
least one folder is configured. Returns the cache after the call and the
I/O performed. -/
def performScan (env : ScanEnv) (isScanning : Bool) (stored : Option Settings)
    (cache : Cache) (now : Nat) : Cache × List Event :=
  if isScanning then (cache, [])
  else
    match stored with
    | none => (cache, [])
    | some s =>
      if !s.enabled || s.folders.isEmpty then (cache, [])
      else
        let r := scanAndImportNewImages env cache s.folders now
        (r.cache, r.events)

/-- `useAutoImport.scanNow` (lines 394-416): the user-initiated manual
scan. It calls `service.scanAndImportNewImages(settings)` directly — not
`performScan` — so the `isScanning` guard state (passed here to record the
state at call time) is never consulted. -/
def scanNow (env : ScanEnv) (_isScanning : Bool) (s : Settings) (cache : Cache)
    (now : Nat) : ScanResult :=
  scanAndImportNewImages env cache s.folders now

/-! ### Concrete test fixtures

Small concrete environments used to evaluate the model at specific inputs
(counterexamples and witnesses). Each oracle is a pure closure. -/

def folderC1 : FolderConfig := { uri := "folder://camera", name := "Camera" }

/-- One folder with five fresh image files; the upload of `c3.jpg` fails
(spec Scenario B). -/
def envC1 : ScanEnv :=
  { readDirectory := fun u =>
      if u == "folder://camera" then
        .ok ["c1.jpg", "c2.jpg", "c3.jpg", "c4.jpg", "c5.jpg"]
      else .error "denied"
    getInfo := fun _ => .ok true
    uploadAsset := fun u => if u == "c3.jpg" then .error "Upload failed" else .ok "asset-1"
    createBookmark := fun _ => .ok ()
    dbOk := true }

def folderC2 : FolderConfig := { uri := "folder://empty", name := "Empty" }

/-- A folder whose listing is empty: the scan run finds zero new images. -/
def envC2 : ScanEnv :=
  { readDirectory := fun _ => .ok []
    getInfo := fun _ => .ok true
    uploadAsset := fun _ => .ok "asset-1"
    createBookmark := fun _ => .ok ()
    dbOk := true }

def folderC3 : FolderConfig := { uri := "folder://gallery", name := "Gallery" }

/-- A folder with one fresh image, used to observe the manual scan path. -/
def envC3 : ScanEnv :=
  { readDirectory := fun _ => .ok ["x.jpg"]
    getInfo := fun _ => .ok true
    uploadAsset := fun _ => .ok "asset-1"
    createBookmark := fun _ => .ok ()
    dbOk := true }

def folderC5 : FolderConfig := { uri := "folder://pics", name := "Pics" }

/-- A folder listing a single file whose whole name is `jpg` (no dot, so
no extension in the usual sense). -/
def envC5 : ScanEnv :=
  { readDirectory := fun _ => .ok ["jpg"]
    getInfo := fun _ => .ok true
    uploadAsset := fun _ => .ok "asset-1"
    createBookmark := fun _ => .ok ()
    dbOk := true }

/-- A folder listing one image file and one text file. -/
def envC5W : ScanEnv :=
  { readDirectory := fun _ => .ok ["a.jpg", "b.txt"]
    getInfo := fun _ => .ok true
    uploadAsset := fun _ => .ok "asset-1"
    createBookmark := fun _ => .ok ()
    dbOk := true }

def imgC6 : ImportedImage := { uri := "w.jpg", filename := "w.jpg", mimeType := "image/jpeg" }

/-- An environment whose upload service always fails. -/
def envC6 : ScanEnv :=
  { readDirectory := fun _ => .ok []
    getInfo := fun _ => .ok true
    uploadAsset := fun _ => .error "Upload failed"
    createBookmark := fun _ => .ok ()
    dbOk := true }

def folderA : FolderConfig := { uri := "folder://a", name := "A" }

def folderB : FolderConfig := { uri := "folder://b", name := "B" }

/-- Folder A's listing throws (permission revoked); folder B lists one
image. -/
def envC8 : ScanEnv :=
  { readDirectory := fun u =>
      if u == "folder://b" then .ok ["b.png"] else .error "Permission denied"
    getInfo := fun _ => .ok true
    uploadAsset := fun _ => .ok "asset-1"
    createBookmark := fun _ => .ok ()
    dbOk := true }

/-- A folder whose listing contains a malformed URI (`%.jpg`) between two
well-formed ones. -/
def envC9 : ScanEnv :=
  { readDirectory := fun _ => .ok ["a.jpg", "%.jpg", "b.png"]
    getInfo := fun _ => .ok true
    uploadAsset := fun _ => .ok "asset-1"
    createBookmark := fun _ => .ok ()
    dbOk := true }

def imgDup : ImportedImage := { uri := "dup.jpg", filename := "dup.jpg", mimeType := "image/jpeg" }

def folderC10 : FolderConfig := { uri := "folder://cam", name := "Cam" }

/-- An environment where every operation succeeds and one folder lists one
image, used with the folder configured twice. -/
def envC10 : ScanEnv :=
  { readDirectory := fun _ => .ok ["dup.jpg"]
    getInfo := fun _ => .ok true
    uploadAsset := fun _ => .ok "asset-9"
    createBookmark := fun _ => .ok ()
    dbOk := true }

/-! ### Supporting lemmas about the cache -/

lemma any_key_eq_true_iff (cache : Cache) (u : String) :
    cache.any (fun q => q.sourceUri == u) = true ↔ u ∈ cacheKeys cache := by
  simp [List.any_eq_true, cacheKeys, List.mem_map]

lemma cacheKeys_append (c1 c2 : Cache) :
    cacheKeys (c1 ++ c2) = cacheKeys c1 ++ cacheKeys c2 := by
  simp [cacheKeys]

lemma addImportedFile_of_mem (ok : Bool) (cache : Cache) (r : ImportedFileRecord)
    (h : r.sourceUri ∈ cacheKeys cache) : addImportedFile ok cache r = cache := by
  have hany : cache.any (fun q => q.sourceUri == r.sourceUri) = true :=
    (any_key_eq_true_iff cache r.sourceUri).mpr h
  cases ok
  · rfl
  · unfold addImportedFile
    rw [if_pos rfl, if_pos hany]

lemma mem_keys_addImportedFile (cache : Cache) (r : ImportedFileRecord) (u : String) :
    u ∈ cacheKeys (addImportedFile true cache r) ↔
      u ∈ cacheKeys cache ∨ u = r.sourceUri := by
  unfold addImportedFile
  by_cases h : cache.any (fun q => q.sourceUri == r.sourceUri) = true
  · rw [if_pos rfl, if_pos h]
    have hmem := (any_key_eq_true_iff cache r.sourceUri).mp h
    constructor
    · exact Or.inl
    · rintro (h1 | rfl)
      · exact h1
      · exact hmem
  · rw [if_pos rfl, if_neg h, cacheKeys_append]
    simp [cacheKeys]

lemma nodup_addImportedFile (ok : Bool) (cache : Cache) (r : ImportedFileRecord)
    (h : NoDupKeys cache) : NoDupKeys (addImportedFile ok cache r) := by
  cases ok
  · exact h
  · by_cases hany : cache.any (fun q => q.sourceUri == r.sourceUri) = true
    · have heq := addImportedFile_of_mem true cache r
        ((any_key_eq_true_iff cache r.sourceUri).mp hany)
      rw [heq]
      exact h
    · have hnot : r.sourceUri ∉ cacheKeys cache := fun hm =>
        hany ((any_key_eq_true_iff cache r.sourceUri).mpr hm)
      unfold NoDupKeys at *
      unfold addImportedFile
      rw [if_pos rfl, if_neg hany, cacheKeys_append]
      rw [List.nodup_append]
      refine ⟨h, by simp [cacheKeys], ?_⟩
      intro x hx hc
      have hxr : x = r.sourceUri := by simpa [cacheKeys] using hc
      exact hnot (hxr ▸ hx)

lemma nodup_foldl_addImportedFile (ok : Bool) (rs : List ImportedFileRecord) :
    ∀ cache : Cache, NoDupKeys cache →
      NoDupKeys (rs.foldl (fun c x => addImportedFile ok c x) cache) := by
  induction rs with
  | nil => intro cache h; exact h
  | cons r rest ih =>
    intro cache h
    simp only [List.foldl_cons]
    exact ih _ (nodup_addImportedFile ok cache r h)

/-! ### Supporting lemmas about the import pipeline -/

lemma importOne_cache_keys (env : ScanEnv) (cache : Cache) (now : Nat)
    (img : ImportedImage) (hdb : env.dbOk = true) (u : String) :
    u ∈ cacheKeys (importOne env cache now img).cache ↔
      u ∈ cacheKeys cache ∨ (importSucceeds env img = true ∧ u = img.uri) := by
  unfold importOne importSucceeds
  cases hup : env.uploadAsset img.uri with
  | error e => simp [hup, exceptOk]
  | ok a =>
    cases hbm : env.createBookmark img.uri with
    | error e => simp [hbm, exceptOk]
    | ok b => simp [hbm, hdb, exceptOk, mem_keys_addImportedFile]

lemma importOne_nodup (env : ScanEnv) (cache : Cache) (now : Nat)
    (img : ImportedImage) (h : NoDupKeys cache) :
    NoDupKeys (importOne env cache now img).cache := by
  unfold importOne
  cases env.uploadAsset img.uri with
  | error e => exact h
  | ok a =>
    cases env.createBookmark img.uri with
    | error e => exact h
    | ok b => exact nodup_addImportedFile _ _ _ h

lemma importImages_keys (env : ScanEnv) (now : Nat) (hdb : env.dbOk = true)
    (imgs : List ImportedImage) :
    ∀ (cache : Cache) (u : String),
      u ∈ cacheKeys (importImages env cache now imgs).cache ↔
        u ∈ cacheKeys cache ∨
          ∃ img ∈ imgs, importSucceeds env img = true ∧ u = img.uri := by
  induction imgs with
  | nil => intro cache u; simp [importImages]
  | cons img rest ih =>
    intro cache u
    simp only [importImages]
    rw [ih, importOne_cache_keys env cache now img hdb u]
    simp only [List.mem_cons]
    constructor
    · rintro ((h1 | h2) | ⟨i, hi, hs, hu⟩)
      · exact Or.inl h1
      · exact Or.inr ⟨img, Or.inl rfl, h2.1, h2.2⟩
      · exact Or.inr ⟨i, Or.inr hi, hs, hu⟩
    · rintro (h1 | ⟨i, hi | hi, hs, hu⟩)
      · exact Or.inl (Or.inl h1)
      · exact Or.inl (Or.inr ⟨hi ▸ hs, hi ▸ hu⟩)
      · exact Or.inr ⟨i, hi, hs, hu⟩

lemma importImages_nodup (env : ScanEnv) (now : Nat) (imgs : List ImportedImage) :
    ∀ cache : Cache, NoDupKeys cache →
      NoDupKeys (importImages env cache now imgs).cache := by
  induction imgs with
  | nil => intro cache h; exact h
  | cons img rest ih =>
    intro cache h
    simp only [importImages]
    exact ih _ (importOne_nodup env cache now img h)

lemma importOne_upload_head (env : ScanEnv) (cache : Cache) (now : Nat)
    (img : ImportedImage) :
    Event.upload img.uri ∈ (importOne env cache now img).events := by
  unfold importOne
  cases env.uploadAsset img.uri with
  | error e => simp
  | ok a =>
    cases env.createBookmark img.uri with
    | error e => simp
    | ok b => simp

lemma importImages_upload_mem (env : ScanEnv) (now : Nat) (imgs : List ImportedImage) :
    ∀ (cache : Cache) (img : ImportedImage), img ∈ imgs →
      Event.upload img.uri ∈ (importImages env cache now imgs).events := by
  induction imgs with
  | nil => intro cache img h; cases h
  | cons i rest ih =>
    intro cache img h
    simp only [importImages, List.mem_append]
    rcases List.mem_cons.mp h with rfl | h2
    · exact Or.inl (importOne_upload_head env cache now img)
    · exact Or.inr (ih _ img h2)

lemma importOne_upload_count (env : ScanEnv) (cache : Cache) (now : Nat)
    (img : ImportedImage) (u : String) :
    ((importOne env cache now img).events).count (Event.upload u) =
      (if img.uri = u then 1 else 0) := by
  unfold importOne
  by_cases h : img.uri = u
  · cases env.uploadAsset img.uri with
    | error e => simp [h, List.count_cons, List.count_nil]
    | ok a =>
      cases env.createBookmark img.uri with
      | error e => simp [h, List.count_cons, List.count_nil]
      | ok b => simp [h, List.count_cons, List.count_nil]
  · cases env.uploadAsset img.uri with
    | error e => simp [h, List.count_cons, List.count_nil]
    | ok a =>
      cases env.createBookmark img.uri with
      | error e => simp [h, List.count_cons, List.count_nil]
      | ok b => simp [h, List.count_cons, List.count_nil]

lemma importOne_bookmark_count (env : ScanEnv) (cache : Cache) (now : Nat)
    (img : ImportedImage) (u : String) (hup : exceptOk (env.uploadAsset u) = true) :
    ((importOne env cache now img).events).count (Event.bookmark u) =
      (if img.uri = u then 1 else 0) := by
  unfold importOne
  by_cases h : img.uri = u
  · subst h
    cases hu : env.uploadAsset img.uri with
    | error e => rw [hu] at hup; simp [exceptOk] at hup
    | ok a =>
      cases env.createBookmark img.uri with
      | error e => simp [List.count_cons, List.count_nil]
      | ok b => simp [List.count_cons, List.count_nil]
  · cases env.uploadAsset img.uri with
    | error e => simp [h, List.count_cons, List.count_nil]
    | ok a =>
      cases env.createBookmark img.uri with
      | error e => simp [h, List.count_cons, List.count_nil]
      | ok b => simp [h, List.count_cons, List.count_nil]

lemma importImages_upload_count (env : ScanEnv) (now : Nat) (imgs : List ImportedImage) :
    ∀ (cache : Cache) (u : String),
      ((importImages env cache now imgs).events).count (Event.upload u) =
        imgs.countP (fun i => i.uri == u) := by
  induction imgs with
  | nil => intro cache u; simp [importImages]
  | cons img rest ih =>
    intro cache u
    simp only [importImages, List.count_append, List.countP_cons]
    rw [ih, importOne_upload_count]
    by_cases h : img.uri = u
    · simp [h]
      omega
    · simp [h]

lemma importImages_bookmark_count (env : ScanEnv) (now : Nat) (imgs : List ImportedImage) :
    ∀ (cache : Cache) (u : String), exceptOk (env.uploadAsset u) = true →
      ((importImages env cache now imgs).events).count (Event.bookmark u) =
        imgs.countP (fun i => i.uri == u) := by
  induction imgs with
  | nil => intro cache u _; simp [importImages]
  | cons img rest ih =>
    intro cache u hup
    simp only [importImages, List.count_append, List.countP_cons]
    rw [ih _ u hup, importOne_bookmark_count env cache now img u hup]
    by_cases h : img.uri = u
    · simp [h]
      omega
    · simp [h]

lemma importImages_events_shape (env : ScanEnv) (now : Nat) (imgs : List ImportedImage) :
    ∀ (cache : Cache) (e : Event), e ∈ (importImages env cache now imgs).events →
      ∃ img, img ∈ imgs ∧
        (e = .upload img.uri ∨ e = .bookmark img.uri ∨ e = .cacheAdd img.uri) := by
  induction imgs with
  | nil => intro cache e h; cases h
  | cons img rest ih =>
    intro cache e h
    simp only [importImages, List.mem_append] at h
    rcases h with h | h
    · refine ⟨img, List.mem_cons_self img rest, ?_⟩
      unfold importOne at h
      cases hu : env.uploadAsset img.uri with
      | error er => rw [hu] at h; simp at h; exact Or.inl h
      | ok a =>
        rw [hu] at h
        cases hb : env.createBookmark img.uri with
        | error er => rw [hb] at h; simp at h; tauto
        | ok b => rw [hb] at h; simp at h; tauto
    · obtain ⟨i, hi, hshape⟩ := ih _ e h
      exact ⟨i, List.mem_cons_of_mem img hi, hshape⟩

/-! ### Supporting lemmas about discovery -/

lemma discoverFile_events (env : ScanEnv) (cache : Cache) (u : String) :
    (discoverFile env cache u).events = [Event.infoCheck u] := by
  unfold discoverFile
  cases env.getInfo u with
  | error e => rfl
  | ok ex =>
    cases decodeURIComponent u with
    | error e => rfl
    | ok uri =>
      dsimp only
      split
      · rfl
      · rfl

lemma discoverFile_of_decode_error (env : ScanEnv) (cache : Cache) (u : String)
    (h : exceptOk (decodeURIComponent u) = false) :
    discoverFile env cache u = { cands := [], events := [Event.infoCheck u] } := by
  unfold discoverFile
  cases env.getInfo u with
  | error e => rfl
  | ok ex =>
    cases hd : decodeURIComponent u with
    | error e => rfl
    | ok uri => rw [hd] at h; simp [exceptOk] at h

lemma discoverFiles_events (env : ScanEnv) (cache : Cache) :
    ∀ us : List String, (discoverFiles env cache us).events = us.map Event.infoCheck := by
  intro us
  induction us with
  | nil => rfl
  | cons u rest ih => simp [discoverFiles, discoverFile_events, ih]

lemma discoverFiles_cands_append (env : ScanEnv) (cache : Cache) :
    ∀ l1 l2 : List String,
      (discoverFiles env cache (l1 ++ l2)).cands =
        (discoverFiles env cache l1).cands ++ (discoverFiles env cache l2).cands := by
  intro l1 l2
  induction l1 with
  | nil => rfl
  | cons u rest ih => simp [discoverFiles, ih]

lemma scanFolder_dirRead_mem (env : ScanEnv) (cache : Cache) (folder : FolderConfig) :
    Event.dirRead folder.uri ∈ (scanFolder env cache folder).events := by
  unfold scanFolder
  cases env.readDirectory folder.uri with
  | error e => simp
  | ok files => simp

lemma scanFolder_of_error (env : ScanEnv) (cache : Cache) (folder : FolderConfig)
    (e : String) (h : env.readDirectory folder.uri = .error e) :
    scanFolder env cache folder = { cands := [], events := [.dirRead folder.uri] } := by
  unfold scanFolder
  rw [h]

lemma scanFolder_events_of_ok (env : ScanEnv) (cache : Cache) (folder : FolderConfig)
    (files : List String) (h : env.readDirectory folder.uri = .ok files) :
    (scanFolder env cache folder).events =
      .dirRead folder.uri ::
        (files.filter (fun u => getImageMimeType u != "")).map Event.infoCheck := by
  unfold scanFolder
  rw [h]
  simp [discoverFiles_events]

lemma scanFolder_infoCheck_iff (env : ScanEnv) (cache : Cache) (folder : FolderConfig)
    (files : List String) (h : env.readDirectory folder.uri = .ok files) (u : String) :
    Event.infoCheck u ∈ (scanFolder env cache folder).events ↔
      u ∈ files ∧ getImageMimeType u ≠ "" := by
  rw [scanFolder_events_of_ok env cache folder files h]
  simp [List.mem_filter, bne_iff_ne]

lemma discoverAll_dirRead_mem (env : ScanEnv) (cache : Cache) :
    ∀ (folders : List FolderConfig) (f : FolderConfig), f ∈ folders →
      Event.dirRead f.uri ∈ (discoverAll env cache folders).events := by
  intro folders
  induction folders with
  | nil => intro f h; cases h
  | cons g rest ih =>
    intro f h
    simp only [discoverAll, List.mem_append]
    rcases List.mem_cons.mp h with rfl | h2
    · exact Or.inl (scanFolder_dirRead_mem env cache f)
    · exact Or.inr (ih f h2)

lemma discoverAll_events_shape (env : ScanEnv) (cache : Cache) :
    ∀ (folders : List FolderConfig) (e : Event),
      e ∈ (discoverAll env cache folders).events →
        (∃ v, e = .dirRead v) ∨ (∃ v, e = .infoCheck v) := by
  intro folders
  induction folders with
  | nil => intro e h; cases h
  | cons g rest ih =>
    intro e h
    simp only [discoverAll, List.mem_append] at h
    rcases h with h | h
    · unfold scanFolder at h
      cases hr : env.readDirectory g.uri with
      | error er =>
        rw [hr] at h
        simp at h
        exact Or.inl ⟨g.uri, h⟩
      | ok files =>
        rw [hr] at h
        simp [discoverFiles_events] at h
        rcases h with h | ⟨v, hv, rfl⟩
        · exact Or.inl ⟨g.uri, h⟩
        · exact Or.inr ⟨v, rfl⟩
    · exact ih e h

/-! ### Supporting lemmas about the whole scan run -/

lemma scan_returnedCount (env : ScanEnv) (cache : Cache) (folders : List FolderConfig)
    (now : Nat) :
    (scanAndImportNewImages env cache folders now).returnedCount =
      (discoverAll env cache folders).cands.length := by
  unfold scanAndImportNewImages
  by_cases hf : folders.isEmpty
  · have : folders = [] := List.isEmpty_iff.mp hf
    subst this
    simp [discoverAll]
  · simp only [hf, Bool.false_eq_true, if_false]
    split
    · rfl
    · rfl

lemma scan_cache (env : ScanEnv) (cache : Cache) (folders : List FolderConfig) (now : Nat) :
    (scanAndImportNewImages env cache folders now).cache =
      (if 0 < (discoverAll env cache folders).cands.length
        then (importImages env cache now (discoverAll env cache folders).cands).cache
        else cache) := by
  unfold scanAndImportNewImages
  by_cases hf : folders.isEmpty
  · have : folders = [] := List.isEmpty_iff.mp hf
    subst this
    simp [discoverAll]
  · simp only [hf, Bool.false_eq_true, if_false]
    split
    · rfl
    · rfl

lemma scan_successCount (env : ScanEnv) (cache : Cache) (folders : List FolderConfig)
    (now : Nat) :
    (scanAndImportNewImages env cache folders now).successCount =
      (if 0 < (discoverAll env cache folders).cands.length
        then (importImages env cache now (discoverAll env cache folders).cands).successes
        else 0) := by
  unfold scanAndImportNewImages
  by_cases hf : folders.isEmpty
  · have : folders = [] := List.isEmpty_iff.mp hf
    subst this
    simp [discoverAll]
  · simp only [hf, Bool.false_eq_true, if_false]
    split
    · rfl
    · rfl

lemma scan_events (env : ScanEnv) (cache : Cache) (folders : List FolderConfig) (now : Nat) :
    (scanAndImportNewImages env cache folders now).events =
      (discoverAll env cache folders).events ++
        (if 0 < (discoverAll env cache folders).cands.length
          then (importImages env cache now (discoverAll env cache folders).cands).events
          else []) := by
  unfold scanAndImportNewImages
  by_cases hf : folders.isEmpty
  · have : folders = [] := List.isEmpty_iff.mp hf
    subst this
    simp [discoverAll]
  · simp only [hf, Bool.false_eq_true, if_false]
    split
    · rfl
    · simp

lemma scan_timestampUpdated (env : ScanEnv) (cache : Cache) (folders : List FolderConfig)
    (now : Nat) :
    (scanAndImportNewImages env cache folders now).timestampUpdated =
      !(discoverAll env cache folders).cands.isEmpty := by
  unfold scanAndImportNewImages
  by_cases hf : folders.isEmpty
  · have : folders = [] := List.isEmpty_iff.mp hf
    subst this
    simp [discoverAll]
  · simp only [hf, Bool.false_eq_true, if_false]
    split
    · rename_i hlen
      cases hc : (discoverAll env cache folders).cands with
      | nil => rw [hc] at hlen; simp at hlen
      | cons a l => simp
    · rename_i hlen
      cases hc : (discoverAll env cache folders).cands with
      | nil => simp [hc]
      | cons a l => rw [hc] at hlen; simp at hlen

/-! ### Claims -/

/-- Claim C1: the claim says the count resolved by
`triggerScanNow` / `scanAndImportNewImages` equals the number of fully
successful imports (with 5 candidates and one upload failure, 4). The code
resolves with `allNewImages.length` instead: on spec Scenario B's input —
five fresh image files of which exactly one fails at upload — the resolved
count is 5 while only 4 imports fully succeeded (and the failed file's URI
is indeed absent from the Dedup Cache). This matches the claim's own
sources (spec §4.4, Scenario B) and the repository's test expectations,
against the code. -/
theorem c1_scan_reports_candidate_count_not_success_count :
    (scanAndImportNewImages envC1 [] [folderC1] 7).returnedCount = 5 ∧
    (scanAndImportNewImages envC1 [] [folderC1] 7).successCount = 4 ∧
    "c3.jpg" ∉ cacheKeys (scanAndImportNewImages envC1 [] [folderC1] 7).cache := by
  refine ⟨rfl, rfl, ?_⟩
  decide

/-- Claim C2 (amended): `scanAndImportNewImages` persists an updated
`lastScanTimestamp` exactly when the run discovered at least one new
candidate image; a run that finds zero new images (or has no folders
configured) does not update the timestamp. -/
theorem c2_lastScanTimestamp_updated_iff_candidates_found (env : ScanEnv) (cache : Cache)
    (folders : List FolderConfig) (now : Nat) :
    (scanAndImportNewImages env cache folders now).timestampUpdated =
      !(discoverAll env cache folders).cands.isEmpty :=
  scan_timestampUpdated env cache folders now

/-- Claim C2 counterexample: a scan run over a configured folder that
lists zero new images performs the directory read (a scan attempt
occurred) but does not persist a `lastScanTimestamp` — refuting "after
every scan run, regardless of how many candidates were found, an updated
lastScanTimestamp is persisted". -/
theorem c2_zero_image_scan_skips_timestamp :
    (scanAndImportNewImages envC2 [] [folderC2] 5).timestampUpdated = false ∧
    Event.dirRead "folder://empty" ∈ (scanAndImportNewImages envC2 [] [folderC2] 5).events := by
  decide

/-- Claim C3 (amended): while the guard state is SCANNING, a scan begun
through `performScan` — the scheduled interval/background path — is
dropped immediately: no I/O of any kind and no cache change. (The
user-initiated `scanNow` path is not guarded; see the counterexample.) -/
theorem c3_performScan_guard_drops_scheduled_scan (env : ScanEnv) (stored : Option Settings)
    (cache : Cache) (now : Nat) :
    performScan env true stored cache now = (cache, []) := rfl

/-- Claim C3 counterexample: the user-initiated `scanNow` path calls
`scanAndImportNewImages` directly and never consults the guard, so with
the guard state SCANNING it still performs directory-listing I/O —
refuting "every call that begins a scan, including the user-initiated
scanNow path, performs no discovery I/O while SCANNING". -/
theorem c3_scanNow_performs_discovery_io_while_scanning :
    Event.dirRead "folder://gallery" ∈
      (scanNow envC3 true { enabled := true, folders := [folderC3] } [] 0).events := by
  decide

/-- Claim C4: `addImportedFile` is idempotent with first-write-wins
semantics — when a record for the `sourceUri` already exists the cache is
returned unchanged (so the original record and its timestamp are
preserved), and starting from a cache with at most one record per
`sourceUri`, any sequence of `addImportedFile` calls preserves that
invariant. -/
theorem c4_addImportedFile_first_write_wins (ok : Bool) (cache : Cache)
    (r : ImportedFileRecord) (hnd : NoDupKeys cache) :
    (r.sourceUri ∈ cacheKeys cache → addImportedFile ok cache r = cache) ∧
    ∀ rs : List ImportedFileRecord,
      NoDupKeys (rs.foldl (fun c x => addImportedFile ok c x) cache) :=
  ⟨addImportedFile_of_mem ok cache r,
   fun rs => nodup_foldl_addImportedFile ok rs cache hnd⟩

/-- Claim C4 witness: re-adding `file://u.jpg` with a later timestamp
leaves the original record (timestamp 5) untouched, and adding the same
new URI twice still yields at most one record per URI. -/
theorem c4_addImportedFile_first_write_wins_witness :
    addImportedFile true [{ sourceUri := "file://u.jpg", importTimestamp := 5 }]
        { sourceUri := "file://u.jpg", importTimestamp := 9 } =
      [{ sourceUri := "file://u.jpg", importTimestamp := 5 }] ∧
    NoDupKeys
      ([{ sourceUri := "file://v.jpg", importTimestamp := 1 },
        { sourceUri := "file://v.jpg", importTimestamp := 2 }].foldl
        (fun c x => addImportedFile true c x)
        [{ sourceUri := "file://u.jpg", importTimestamp := 5 }]) :=
  ⟨(c4_addImportedFile_first_write_wins true
      [{ sourceUri := "file://u.jpg", importTimestamp := 5 }]
      { sourceUri := "file://u.jpg", importTimestamp := 9 } (by decide)).1 (by decide),
   (c4_addImportedFile_first_write_wins true
      [{ sourceUri := "file://u.jpg", importTimestamp := 5 }]
      { sourceUri := "file://u.jpg", importTimestamp := 9 } (by decide)).2
      [{ sourceUri := "file://v.jpg", importTimestamp := 1 },
       { sourceUri := "file://v.jpg", importTimestamp := 2 }]⟩

/-- Claim C5 (amended): discovery performs an existence check on a listed
file exactly when `getImageMimeType` of its raw URI is non-empty;
classification is a pure, case-insensitive function of the last
`.`-separated token of the name (the whole lowercased name when it
contains no dot), with the mapping jpg/jpeg→image/jpeg, png→image/png,
gif→image/gif, bmp→image/bmp, webp→image/webp and everything else
excluded; and uploads are only ever attempted for discovered candidates.
(A dot-free name equal to an allow-listed token — a file with no
extension — is itself classified as an image; see the counterexample.) -/
theorem c5_extension_filter_and_mime_mapping (env : ScanEnv) (cache : Cache)
    (folder : FolderConfig) (files : List String)
    (h : env.readDirectory folder.uri = .ok files) :
    (∀ u, Event.infoCheck u ∈ (scanFolder env cache folder).events ↔
        u ∈ files ∧ getImageMimeType u ≠ "") ∧
    (∀ s, getImageMimeType s = specMimeOfExt (extTokenOf s)) ∧
    (getImageMimeType "photo.jpg" = "image/jpeg" ∧ getImageMimeType "photo.JPEG" = "image/jpeg" ∧
      getImageMimeType "photo.PnG" = "image/png" ∧ getImageMimeType "photo.gif" = "image/gif" ∧
      getImageMimeType "photo.BMP" = "image/bmp" ∧ getImageMimeType "photo.webp" = "image/webp" ∧
      getImageMimeType "notes.txt" = "" ∧ getImageMimeType "" = "") ∧
    (∀ (folders : List FolderConfig) (now : Nat) (v : String),
        Event.upload v ∈ (scanAndImportNewImages env cache folders now).events →
          ∃ img, img ∈ (discoverAll env cache folders).cands ∧ img.uri = v) := by
  refine ⟨fun u => scanFolder_infoCheck_iff env cache folder files h u,
    fun s => rfl, by decide, ?_⟩
  intro folders now v hmem
  rw [scan_events] at hmem
  rcases List.mem_append.mp hmem with h1 | h2
  · rcases discoverAll_events_shape env cache folders _ h1 with ⟨w, hw⟩ | ⟨w, hw⟩
    · cases hw
    · cases hw
  · by_cases hlen : 0 < (discoverAll env cache folders).cands.length
    · rw [if_pos hlen] at h2
      obtain ⟨img, hi, hshape⟩ := importImages_events_shape env now _ cache _ h2
      rcases hshape with hs | hs | hs
      · injection hs with hv
        exact ⟨img, hi, hv.symm⟩
      · cases hs
      · cases hs
    · rw [if_neg hlen] at h2
      cases h2

/-- Claim C5 counterexample: the file named `jpg` contains no dot, so its
extension is missing, yet `getImageMimeType` classifies it as
`image/jpeg` and discovery performs an existence check on it — refuting
"every file whose extension is missing is excluded before the existence
check". -/
theorem c5_dotless_name_reaches_existence_check :
    ("jpg".data.contains '.') = false ∧
    getImageMimeType "jpg" = "image/jpeg" ∧
    Event.infoCheck "jpg" ∈ (scanFolder envC5 [] folderC5).events := by
  decide

/-- Claim C5 witness: in a folder listing `a.jpg` and `b.txt`, the
existence-check characterisation holds at `b.txt` (whose MIME is empty,
so it gets no existence check), and the jpg mapping evaluates. -/
theorem c5_extension_filter_and_mime_mapping_witness :
    (Event.infoCheck "b.txt" ∈ (scanFolder envC5W [] folderC5).events ↔
      "b.txt" ∈ ["a.jpg", "b.txt"] ∧ getImageMimeType "b.txt" ≠ "") ∧
    getImageMimeType "photo.jpg" = "image/jpeg" :=
  ⟨(c5_extension_filter_and_mime_mapping envC5W [] folderC5 ["a.jpg", "b.txt"] rfl).1 "b.txt",
   (c5_extension_filter_and_mime_mapping envC5W [] folderC5 ["a.jpg", "b.txt"] rfl).2.2.1.1⟩

/-- Claim C6: per-candidate failure isolation in `importImages` — the
final cache holds a URI exactly when it was already cached or belongs to
a candidate whose upload and bookmark registration both succeeded; hence
a failed candidate's URI (not otherwise imported) is absent from the
cache (it will be re-attempted next scan); and every candidate's upload
is attempted, so one file's failure never aborts the run. -/
theorem c6_per_candidate_failure_isolation (env : ScanEnv) (cache : Cache) (now : Nat)
    (imgs : List ImportedImage) (hdb : env.dbOk = true) :
    (∀ u, u ∈ cacheKeys (importImages env cache now imgs).cache ↔
        u ∈ cacheKeys cache ∨ ∃ img ∈ imgs, importSucceeds env img = true ∧ u = img.uri) ∧
    (∀ img ∈ imgs, importSucceeds env img = false → img.uri ∉ cacheKeys cache →
        (∀ img2 ∈ imgs, img2.uri = img.uri → importSucceeds env img2 = false) →
        img.uri ∉ cacheKeys (importImages env cache now imgs).cache) ∧
    (∀ img ∈ imgs, Event.upload img.uri ∈ (importImages env cache now imgs).events) := by
  refine ⟨importImages_keys env now hdb imgs cache, ?_,
    fun img h => importImages_upload_mem env now imgs cache img h⟩
  intro img hmem hfail hnotin hall hcon
  rcases (importImages_keys env now hdb imgs cache img.uri).mp hcon with h1 | ⟨i, hi, hs, hu⟩
  · exact hnotin h1
  · rw [hall i hi hu.symm] at hs
    cases hs

/-- Claim C6 witness: with an always-failing upload service, the sole
candidate's URI stays out of the Dedup Cache while its upload was still
attempted. -/
theorem c6_per_candidate_failure_isolation_witness :
    "w.jpg" ∉ cacheKeys (importImages envC6 [] 3 [imgC6]).cache ∧
    Event.upload "w.jpg" ∈ (importImages envC6 [] 3 [imgC6]).events :=
  ⟨(c6_per_candidate_failure_isolation envC6 [] 3 [imgC6] rfl).2.1 imgC6 (by decide)
      (by decide) (by decide) (by decide),
   (c6_per_candidate_failure_isolation envC6 [] 3 [imgC6] rfl).2.2 imgC6 (by decide)⟩

/-- Claim C7: every Dedup Cache operation degrades gracefully on storage
failure — `hasBeenImported` returns false, `getStats` returns
`{totalFiles := 0, oldestImport := null, newestImport := null}` (as it
also does on an empty cache), `getImportedFiles` returns the empty list,
and the write operations (`addImportedFile`, `removeImportedFile`,
`clearCache`) swallow the error and leave the cache unchanged. (All
operations are total functions: none can throw into the pipeline.) -/
theorem c7_cache_degrades_gracefully_on_storage_failure :
    ∀ (cache : Cache) (uri : String) (r : ImportedFileRecord),
      hasBeenImported false cache uri = false ∧
      getStats false cache = { totalFiles := 0, oldestImport := none, newestImport := none } ∧
      getStats true [] = { totalFiles := 0, oldestImport := none, newestImport := none } ∧
      getImportedFiles false cache = [] ∧
      addImportedFile false cache r = cache ∧
      removeImportedFile false cache uri = cache ∧
      clearCache false cache = cache :=
  fun _ _ _ => ⟨rfl, rfl, rfl, rfl, rfl, rfl, rfl⟩

/-- Claim C8: folder-level fault isolation — when listing folder `a`
throws, the run's candidates are exactly those of the remaining folders,
every folder (including the failing one and all after it) is still
listed, and the scan's resolved count, final cache, and number of
successful imports equal those of a run without the failing folder. -/
theorem c8_folder_fault_isolation (env : ScanEnv) (cache : Cache) (now : Nat)
    (a : FolderConfig) (rest : List FolderConfig) (e : String)
    (herr : env.readDirectory a.uri = .error e) :
    (discoverAll env cache (a :: rest)).cands = (discoverAll env cache rest).cands ∧
    (∀ f ∈ a :: rest, Event.dirRead f.uri ∈ (discoverAll env cache (a :: rest)).events) ∧
    (scanAndImportNewImages env cache (a :: rest) now).returnedCount =
      (discoverAll env cache rest).cands.length ∧
    (scanAndImportNewImages env cache (a :: rest) now).cache =
      (scanAndImportNewImages env cache rest now).cache ∧
    (scanAndImportNewImages env cache (a :: rest) now).successCount =
      (scanAndImportNewImages env cache rest now).successCount := by
  have hcands : (discoverAll env cache (a :: rest)).cands =
      (discoverAll env cache rest).cands := by
    simp only [discoverAll]
    rw [scanFolder_of_error env cache a e herr]
    simp
  refine ⟨hcands, fun f hf => discoverAll_dirRead_mem env cache (a :: rest) f hf, ?_, ?_, ?_⟩
  · rw [scan_returnedCount, hcands]
  · rw [scan_cache, scan_cache, hcands]
  · rw [scan_successCount, scan_successCount, hcands]

/-- Claim C8 witness: with folder A's listing throwing, the candidates of
the two-folder run equal those of folder B alone, and folder B is still
listed. -/
theorem c8_folder_fault_isolation_witness :
    (discoverAll envC8 [] [folderA, folderB]).cands = (discoverAll envC8 [] [folderB]).cands ∧
    Event.dirRead "folder://b" ∈ (discoverAll envC8 [] [folderA, folderB]).events :=
  ⟨(c8_folder_fault_isolation envC8 [] 0 folderA [folderB] "Permission denied" rfl).1,
   (c8_folder_fault_isolation envC8 [] 0 folderA [folderB] "Permission denied" rfl).2.1
      folderB (by decide)⟩

/-- Claim C9 (amended): the filename derivation can raise — it begins with
`decodeURIComponent`, which throws `URIError` on a malformed
percent-escape — but the exception is caught by the per-file handler: a
file whose URI fails to decode contributes no candidate (only its
already-performed existence check), and the candidates of the remaining
files are exactly as if it were absent, so a single bad identifier never
crashes or aborts the scan run. -/
theorem c9_malformed_uri_is_skipped_scan_continues (env : ScanEnv) (cache : Cache)
    (u : String) (h : exceptOk (decodeURIComponent u) = false) :
    discoverFile env cache u = { cands := [], events := [Event.infoCheck u] } ∧
    ∀ pre post : List String,
      (discoverFiles env cache (pre ++ u :: post)).cands =
        (discoverFiles env cache pre).cands ++ (discoverFiles env cache post).cands := by
  refine ⟨discoverFile_of_decode_error env cache u h, ?_⟩
  intro pre post
  rw [discoverFiles_cands_append]
  simp only [discoverFiles]
  rw [discoverFile_of_decode_error env cache u h]
  simp

/-- Claim C9 counterexample: the URI `%.jpg` passes the image filter, but
`decodeURIComponent` raises `URIError: URI malformed` on it — refuting
"for every file URI, however malformed, the filename derivation yields
some string rather than raising an exception". -/
theorem c9_decodeURIComponent_raises_on_malformed_escape :
    decodeURIComponent "%.jpg" = .error malformedMsg ∧
    getImageMimeType "%.jpg" = "image/jpeg" :=
  ⟨rfl, by decide⟩

/-- Claim C9 witness: in a listing `a.jpg, %.jpg, b.png`, the malformed
URI is skipped and the remaining files' candidates are untouched. -/
theorem c9_malformed_uri_is_skipped_scan_continues_witness :
    discoverFile envC9 [] "%.jpg" = { cands := [], events := [Event.infoCheck "%.jpg"] } ∧
    (discoverFiles envC9 [] (["a.jpg"] ++ "%.jpg" :: ["b.png"])).cands =
      (discoverFiles envC9 [] ["a.jpg"]).cands ++ (discoverFiles envC9 [] ["b.png"]).cands :=
  ⟨(c9_malformed_uri_is_skipped_scan_continues envC9 [] "%.jpg" rfl).1,
   (c9_malformed_uri_is_skipped_scan_continues envC9 [] "%.jpg" rfl).2 ["a.jpg"] ["b.png"]⟩

/-- Claim C10: the dedup check happens only at discovery time — a folder
configured twice contributes its candidates twice, each checked against
the pre-run cache — and the pipeline never rechecks the cache between
candidates: a URI appearing twice among a run's candidates (fresh, with
both remote operations succeeding) is uploaded twice and registered as a
bookmark twice in that run, while the Dedup Cache ends with exactly one
record for it. -/
theorem c10_duplicate_candidate_double_upload_single_record (env : ScanEnv) (cache : Cache)
    (now : Nat) (imgs : List ImportedImage) (u : String) (f : FolderConfig)
    (rest : List FolderConfig) (hdb : env.dbOk = true) (hnd : NoDupKeys cache)
    (_hnotin : u ∉ cacheKeys cache)
    (hcount : imgs.countP (fun i => i.uri == u) = 2)
    (hup : exceptOk (env.uploadAsset u) = true)
    (hbm : exceptOk (env.createBookmark u) = true) :
    ((importImages env cache now imgs).events).count (Event.upload u) = 2 ∧
    ((importImages env cache now imgs).events).count (Event.bookmark u) = 2 ∧
    (cacheKeys (importImages env cache now imgs).cache).count u = 1 ∧
    (discoverAll env cache (f :: f :: rest)).cands =
      (scanFolder env cache f).cands ++
        ((scanFolder env cache f).cands ++ (discoverAll env cache rest).cands) := by
  refine ⟨?_, ?_, ?_, rfl⟩
  · rw [importImages_upload_count]
    exact hcount
  · rw [importImages_bookmark_count env now imgs cache u hup]
    exact hcount
  · have hpos : 0 < imgs.countP (fun i => i.uri == u) := by omega
    obtain ⟨i, hi, hp⟩ := List.countP_pos_iff.mp hpos
    have hiu : i.uri = u := by simpa using hp
    have hsucc : importSucceeds env i = true := by
      simp [importSucceeds, hiu, hup, hbm]
    have hmem : u ∈ cacheKeys (importImages env cache now imgs).cache :=
      (importImages_keys env now hdb imgs cache u).mpr (Or.inr ⟨i, hi, hsucc, hiu.symm⟩)
    have hnd2 : NoDupKeys (importImages env cache now imgs).cache :=
      importImages_nodup env now imgs cache hnd
    exact List.count_eq_one_of_mem hnd2 hmem

/-- Claim C10 witness: two duplicate candidates for `dup.jpg` produce two
upload events but a single cache record. -/
theorem c10_duplicate_candidate_double_upload_single_record_witness :
    ((importImages envC10 [] 9 [imgDup, imgDup]).events).count (Event.upload "dup.jpg") = 2 ∧
    (cacheKeys (importImages envC10 [] 9 [imgDup, imgDup]).cache).count "dup.jpg" = 1 :=
  ⟨(c10_duplicate_candidate_double_upload_single_record envC10 [] 9 [imgDup, imgDup]
      "dup.jpg" folderC10 [] rfl (by decide) (by decide) (by decide) rfl rfl).1,
   (c10_duplicate_candidate_double_upload_single_record envC10 [] 9 [imgDup, imgDup]
      "dup.jpg" folderC10 [] rfl (by decide) (by decide) (by decide) rfl rfl).2.2.1⟩

end AutoImport
